import Mathlib

/-!
Shallow embedding of the list/range batch engine (`dfc/listrange.go`) of the
dfcpub repository, together with a model of the xaction registry bookkeeping
it uses and of the cluster-meta discovery procedure.  Wall-clock time, the
regular-expression engine, HRW hashing and per-object storage effects are
abstracted as explicit oracle parameters; everything else follows the Go
source line by line.
-/

/-- Result of a Go computation that may panic at runtime (for example an
out-of-range slice index). -/
inductive GoResult (α : Type) where
  | ok (val : α)
  | crash (msg : String)
deriving DecidableEq

/-- Digit accumulator for `goParseInt`: value of a digit string in base 10,
`none` as soon as a non-digit character is seen. -/
def digitsVal : List Char → Nat → Option Nat
  | [], acc => some acc
  | c :: rest, acc =>
    if c.isDigit then digitsVal rest (acc * 10 + (c.toNat - 48)) else none

/-- Value of a nonempty all-digit character list, `none` otherwise. -/
def digitsToNat (cs : List Char) : Option Nat :=
  match cs with
  | [] => none
  | _ :: _ => digitsVal cs 0

/-- Go `strconv.ParseInt(s, 10, 64)`: returns the parsed value and an error;
on a syntax error the value is 0, on int64 overflow the value is the clamped
bound (and the error is non-nil in both cases). -/
def goParseInt (s : String) : Int × Option String :=
  match s.data with
  | [] => (0, some "invalid syntax")
  | c :: rest =>
    if c = '-' then
      match digitsToNat rest with
      | none => (0, some "invalid syntax")
      | some n =>
        if (n : Int) ≤ 9223372036854775808 then (-(n : Int), none)
        else (-9223372036854775808, some "value out of range")
    else if c = '+' then
      match digitsToNat rest with
      | none => (0, some "invalid syntax")
      | some n =>
        if (n : Int) ≤ 9223372036854775807 then ((n : Int), none)
        else (9223372036854775807, some "value out of range")
    else
      match digitsToNat (c :: rest) with
      | none => (0, some "invalid syntax")
      | some n =>
        if (n : Int) ≤ 9223372036854775807 then ((n : Int), none)
        else (9223372036854775807, some "value out of range")

/-- Model of `goParseInt` restricted to its success case. -/
def goParseIntOk (s : String) : Option Int :=
  if (goParseInt s).2.isSome then none else some (goParseInt s).1

/-- Go `strings.Split` on a single-character separator, accumulator form. -/
def goSplitAux (sep : Char) : List Char → List Char → List (List Char)
  | [], acc => [acc.reverse]
  | c :: rest, acc =>
    if c = sep then acc.reverse :: goSplitAux sep rest []
    else goSplitAux sep rest (c :: acc)

/-- Go `strings.Split(s, sep)` for a one-character separator. -/
def goSplit (s : String) (sep : Char) : List String :=
  (goSplitAux sep s.data []).map (fun l => String.mk l)

/-- Helper for Go `strings.TrimPrefix`: remove `pfx` in front of a char list,
`none` when it is not in front. -/
def dropPref : List Char → List Char → Option (List Char)
  | [], rest => some rest
  | _ :: _, [] => none
  | p :: ps, c :: cs => if c = p then dropPref ps cs else none

/-- Go `strings.TrimPrefix(s, pfx)`: `s` without the leading `pfx`, or `s`
unchanged when `pfx` is not a prefix of `s`. -/
def trimPref (s pfx : String) : String :=
  match dropPref pfx.data s.data with
  | some rest => String.mk rest
  | none => s

/-- Embedding of `acceptRegexRange` from `dfc/listrange.go` (lines 111-128).  The Go regex
engine is abstracted as the oracle `find`, standing for
`regex.FindStringSubmatch` restricted to the full match `s[0]`
(`none` = no match, `some m` = the regex matched with full match `m`). -/
def acceptRegexRange (name pfx : String) (find : String → Option String)
    (mn mx : Int) : Bool :=
  let oname := trimPref name pfx
  match find oname with
  | none => false
  | some m =>
    let pr := goParseInt m
    if pr.2.isSome ∧ ¬(m = "") then false
    else if m = "" ∨ ((mn = 0 ∨ mn ≤ pr.1) ∧ (mx = 0 ∨ pr.1 ≤ mx)) then true
    else false

/-- Embedding of `parseRange` from `dfc/listrange.go` (lines 554-581), Go semantics
preserved: the named return values are partially set on a parse error (max
stays 0 when min fails to parse), and a colon-free nonempty input panics on
the out-of-range index access `ranges[1]`. -/
def parseRange (rangestr : String) : GoResult (Int × Int × Option String) :=
  if rangestr = "" then .ok (0, 0, none)
  else
    let ranges := goSplit rangestr ':'
    let r0 := ranges.headD ""
    let p0 := if r0 = "" then ((0 : Int), (none : Option String)) else goParseInt r0
    if p0.2.isSome then .ok (p0.1, 0, p0.2)
    else
      match ranges.get? 1 with
      | none => .crash "runtime error: index out of range"
      | some r1 =>
        if r1 = "" then .ok (p0.1, 0, none)
        else
          let p1 := goParseInt r1
          .ok (p0.1, p1.1, p1.2)

/-- Observable outcome of a `rangeOperation` call: whether an error was
reported to the client via `invalmsghdlr`, and with which `(min, max)` pair
the asynchronous operation goroutine was started (`none` = not started). -/
structure RangeOpOutcome where
  reportedError : Bool
  opStarted : Option (Int × Int)
deriving DecidableEq

/-- Embedding of `rangeOperation` from `dfc/listrange.go` (lines 171-202), restricted to
its range-parsing and dispatch behaviour: after `parseRange` fails the code
calls the error handler but does not return, so the operation goroutine is
started regardless, with whatever partial `(min, max)` values `parseRange`
produced. -/
def rangeOperation (range : String) : GoResult RangeOpOutcome :=
  match parseRange range with
  | .crash m => .crash m
  | .ok (mn, mx, err) =>
    .ok { reportedError := err.isSome, opStarted := some (mn, mx) }

/-- A target runner, reduced to what the xaction diagnostics use: the boot
time read by `starttime()`. -/
structure TargetRunner where
  starttimeVal : Int
deriving DecidableEq

/-- The `xactBase` fields used by this file (`id`, `kind`, start/end times). -/
structure XactBase where
  id : Nat
  kind : String
  stime : Int
  etime : Option Int
deriving DecidableEq

def ActDelete : String := "delete"

def ActEvict : String := "evict"

def ActPrefetch : String := "prefetch"

/-- Modelled from the spec: `newxactBase` is not under `src/`; per the
xaction lifecycle of the spec it records the id and kind of a freshly
created, unfinished xaction (the start time is abstracted to 0 since no
claim depends on its value). -/
def newxactBase (id : Nat) (kind : String) : XactBase :=
  { id := id, kind := kind, stime := 0, etime := none }

def XactBase.finished (x : XactBase) : Bool := x.etime.isSome

/-- Embedding of `xactDeleteEvict` from `dfc/listrange.go`: an `xactBase` plus a
back-reference to the target runner, which Go leaves as the nil zero value
unless explicitly assigned (`none` models nil). -/
structure XactDeleteEvict where
  xactBase : XactBase
  targetrunner : Option TargetRunner
deriving DecidableEq

/-- Embedding of `xactPrefetch` from `dfc/listrange.go`. -/
structure XactPrefetch where
  xactBase : XactBase
  targetrunner : Option TargetRunner
deriving DecidableEq

/-- An entry of the xaction registry. -/
inductive XactEntry where
  | delev (x : XactDeleteEvict)
  | pre (x : XactPrefetch)
deriving DecidableEq

def XactEntry.id : XactEntry → Nat
  | .delev x => x.xactBase.id
  | .pre x => x.xactBase.id

def XactEntry.kind : XactEntry → String
  | .delev x => x.xactBase.kind
  | .pre x => x.xactBase.kind

def XactEntry.finished : XactEntry → Bool
  | .delev x => x.xactBase.finished
  | .pre x => x.xactBase.finished

/-- The xaction registry `xactInProgress`: a monotone id counter and the list
of registered xactions (the registry mutex is irrelevant in this sequential
model). -/
structure XactInProgress where
  nextid : Nat
  inProg : List XactEntry
deriving DecidableEq

/-- Modelled from the spec: `uniqueid` is not under `src/`; ids are monotone
per node (spec 4.F). -/
def XactInProgress.uniqueid (q : XactInProgress) : Nat × XactInProgress :=
  (q.nextid, { q with nextid := q.nextid + 1 })

/-- Modelled from the spec: registry `add` is not under `src/`. -/
def XactInProgress.add (q : XactInProgress) (e : XactEntry) : XactInProgress :=
  { q with inProg := q.inProg ++ [e] }

/-- Modelled from the spec: registry `del(id)` is not under `src/`; it
deregisters the xaction with the given id. -/
def XactInProgress.del (q : XactInProgress) (id : Nat) : XactInProgress :=
  { q with inProg := q.inProg.filter (fun e => e.id ≠ id) }

/-- Modelled from the spec: `findU(kind)` is not under `src/`; it finds a
live (unfinished) xaction of the given kind, used by `renewPrefetch` to keep
prefetch a singleton. -/
def XactInProgress.findU (q : XactInProgress) (kind : String) : Option XactEntry :=
  q.inProg.find? (fun e => e.kind == kind && !e.finished)

/-- Embedding of `newDelete` from `dfc/listrange.go` (lines 293-300): registers a fresh
`xactDeleteEvict` whose `targetrunner` field is never assigned, hence nil. -/
def XactInProgress.newDelete (q : XactInProgress) : XactInProgress × XactDeleteEvict :=
  let p := q.uniqueid
  let xpre : XactDeleteEvict := { xactBase := newxactBase p.1 ActDelete, targetrunner := none }
  (p.2.add (.delev xpre), xpre)

/-- Embedding of `newEvict` from `dfc/listrange.go` (lines 302-309). -/
def XactInProgress.newEvict (q : XactInProgress) : XactInProgress × XactDeleteEvict :=
  let p := q.uniqueid
  let xpre : XactDeleteEvict := { xactBase := newxactBase p.1 ActEvict, targetrunner := none }
  (p.2.add (.delev xpre), xpre)

/-- Embedding of `renewPrefetch` from `dfc/listrange.go` (lines 438-452): returns `none`
when a live prefetch xaction exists, otherwise registers a fresh
`xactPrefetch` whose `targetrunner` back-reference is set to `t`. -/
def XactInProgress.renewPrefetch (q : XactInProgress) (t : TargetRunner) :
    XactInProgress × Option XactPrefetch :=
  match q.findU ActPrefetch with
  | some _ => (q, none)
  | none =>
    let p := q.uniqueid
    let xpre : XactPrefetch := { xactBase := newxactBase p.1 ActPrefetch, targetrunner := some t }
    (p.2.add (.pre xpre), some xpre)

/-- Embedding of `xactDeleteEvict.tostring` from `dfc/listrange.go` (lines 311-318): the
start offset is `stime - targetrunner.starttime()`, which dereferences the
`targetrunner` pointer; with a nil back-reference the call panics
(modelled as `Except.error`). -/
def XactDeleteEvict.tostring (x : XactDeleteEvict) : Except String String :=
  match x.targetrunner with
  | none => .error "nil pointer dereference"
  | some tr =>
    let start := x.xactBase.stime - tr.starttimeVal
    if !x.xactBase.finished then
      .ok ("xaction " ++ x.xactBase.kind ++ ":" ++ toString x.xactBase.id ++
        " started " ++ toString start)
    else
      .ok ("xaction " ++ x.xactBase.kind ++ ":" ++ toString x.xactBase.id ++
        " started " ++ toString start ++ " finished")

/-- Observable events of the batch engines, in program order.  `attempted`
marks a `fildelete` call, `deadlineSkip` an object skipped because the
absolute deadline passed, `prefetchAttempt` a `prefetchMissing` call,
`signalDone` a send on the `done` channel, `deregister` the registry
`del` call, `logged` a glog error line, `statAdd` a stats counter update. -/
inductive Event where
  | attempted (obj : String)
  | deadlineSkip (obj : String)
  | abortReturn
  | signalDone
  | deregister (id : Nat)
  | logged (msg : String)
  | statAdd (stat : String) (n : Int)
  | prefetchAttempt (obj : String)
deriving DecidableEq

/-- The object loop of `doListEvictDelete` (lines 247-260).  `fildelete` is
the per-object storage oracle (`some e` = error), `abortAt i` the outcome of
the non-blocking select on the abort channel before object `i`, `expiredAt i`
the outcome of the deadline test before object `i`.  Returns the emitted
events and the error returned by the loop. -/
def delLoop (fildelete : String → Option String) (abortAt expiredAt : Nat → Bool) :
    List String → Nat → List Event × Option String
  | [], _ => ([], none)
  | o :: rest, i =>
    if abortAt i then ([.abortReturn], none)
    else if expiredAt i then
      let p := delLoop fildelete abortAt expiredAt rest (i + 1)
      (.deadlineSkip o :: p.1, p.2)
    else
      match fildelete o with
      | some e => ([.attempted o], some e)
      | none =>
        let p := delLoop fildelete abortAt expiredAt rest (i + 1)
        (.attempted o :: p.1, p.2)

/-- Embedding of `doListEvictDelete` from `dfc/listrange.go` (lines 226-263): registers a
delete or evict xaction, runs the object loop, and on every return path the
deferred function first sends one completion signal on `done` (when `done`
is non-nil, i.e. `hasDone = true`) and then deregisters the xaction.
Returns the updated registry, the event trace and the returned error. -/
def doListEvictDelete (q : XactInProgress) (evict : Bool)
    (fildelete : String → Option String) (abortAt expiredAt : Nat → Bool)
    (objs : List String) (hasDone : Bool) :
    XactInProgress × List Event × Option String :=
  let pq := if evict then q.newEvict else q.newDelete
  let p := delLoop fildelete abortAt expiredAt objs 0
  let tr := p.1 ++ (if hasDone then [Event.signalDone] else []) ++
    [Event.deregister pq.2.xactBase.id]
  (pq.1.del pq.2.xactBase.id, tr, p.2)

/-- The dispatch part of `listOperation` (lines 150-168) for delete/evict,
after the HRW ownership filter produced `objs`: nothing happens on an empty
list; otherwise the operation runs with `done` non-nil iff `wait`, and an
error returned by the operation is logged and counted in `numerr`. -/
def listOperationDispatch (q : XactInProgress) (evict : Bool)
    (fildelete : String → Option String) (abortAt expiredAt : Nat → Bool)
    (objs : List String) (wait : Bool) : XactInProgress × List Event :=
  if objs = [] then (q, [])
  else
    let r := doListEvictDelete q evict fildelete abortAt expiredAt objs wait
    match r.2.2 with
    | some e =>
      (r.1, r.2.1 ++ [Event.logged ("Error performing list operation: " ++ e),
        Event.statAdd "numerr" 1])
    | none => (r.1, r.2.1)

/-- Embedding of `filesWithDeadline` from `dfc/listrange.go` (lines 28-34); the absolute
deadline test performed by `doPrefetch` at drain time is abstracted to the
boolean `expired`, and a non-nil `done` channel to `hasDone`. -/
structure FilesWD where
  objnames : List String
  bucket : String
  expired : Bool
  hasDone : Bool
deriving DecidableEq

/-- Events of one non-expired prefetch queue entry (lines 346-355):
`prefetchMissing` is called for every object name; per-object errors are
logged inside `prefetchMissing` (oracle `perr`) and swallowed, no `numerr`
is added; then one completion signal is sent iff `done` is non-nil. -/
def prefetchEntryEvents (perr : String → Option String) (fwd : FilesWD) : List Event :=
  (fwd.objnames.flatMap (fun o => Event.prefetchAttempt o ::
    (match perr o with
     | some e => [Event.logged e]
     | none => []))) ++
  (if fwd.hasDone then [Event.signalDone] else [])

/-- The drain loop of `doPrefetch` (lines 340-361): entries whose deadline
expired are dropped entirely (no signal), the rest are processed. -/
def prefetchLoop (perr : String → Option String) : List FilesWD → List Event
  | [] => []
  | fwd :: rest =>
    if fwd.expired then prefetchLoop perr rest
    else prefetchEntryEvents perr fwd ++ prefetchLoop perr rest

/-- Embedding of `doPrefetch` from `dfc/listrange.go` (lines 334-365): renews the
singleton prefetch xaction (returning immediately when one is live), drains
the queue, then deregisters the xaction. -/
def doPrefetch (q : XactInProgress) (t : TargetRunner)
    (perr : String → Option String) (queue : List FilesWD) :
    XactInProgress × List Event :=
  match q.renewPrefetch t with
  | (q0, none) => (q0, [])
  | (q1, some xpre) =>
    (q1.del xpre.xactBase.id, prefetchLoop perr queue ++ [Event.deregister xpre.xactBase.id])

/-- Embedding of `addPrefetchList` from `dfc/listrange.go` (lines 410-422): a local
bucket (per the current bucket metadata, modelled as the list of local
bucket names) is a synchronous error before anything is enqueued; otherwise
the entry is appended to the prefetch queue. -/
def addPrefetchList (localBuckets : List String) (objs : List String)
    (bucket : String) (expired : Bool) (hasDone : Bool) (queue : List FilesWD) :
    Except String (List FilesWD) :=
  if bucket ∈ localBuckets then
    .error ("Cannot prefetch from a local bucket: " ++ bucket)
  else
    .ok (queue ++ [{ objnames := objs, bucket := bucket, expired := expired, hasDone := hasDone }])

/-- The ownership filter of `listOperation` (lines 139-149).  `hrw o` is the
oracle for `HrwTarget(bucket, o, smap)`: the owning daemon id (`none` = Go
nil `*daemonInfo`) and the error string.  A non-empty error string aborts
the whole request; a nil daemon info would make Go dereference nil. -/
def listOperationFilter (hrw : String → Option String × String) (selfId : String) :
    List String → Except String (List String)
  | [] => .ok []
  | o :: rest =>
    let p := hrw o
    if ¬(p.2 = "") then .error p.2
    else
      match p.1 with
      | none => .error "runtime error: invalid memory address or nil pointer dereference"
      | some d =>
        match listOperationFilter hrw selfId rest with
        | .error e => .error e
        | .ok objs => .ok (if d = selfId then o :: objs else objs)

/-- The filter loop of `getListFromRange` (lines 96-106) over the names of
the full bucket listing: candidates failing `acceptRegexRange` are dropped;
a candidate is kept when `HrwTarget` returns nil or the target itself, with
the error string checked only inside that branch (as in the source). -/
def getListFromRangeFilter (find : String → Option String) (pfx : String)
    (mn mx : Int) (hrw : String → Option String × String) (selfId : String) :
    List String → Except String (List String)
  | [] => .ok []
  | be :: rest =>
    if acceptRegexRange be pfx find mn mx = false then
      getListFromRangeFilter find pfx mn mx hrw selfId rest
    else
      let p := hrw be
      if p.1 = none ∨ p.1 = some selfId then
        if ¬(p.2 = "") then .error p.2
        else
          match getListFromRangeFilter find pfx mn mx hrw selfId rest with
          | .error e => .error e
          | .ok objs => .ok (be :: objs)
      else getListFromRangeFilter find pfx mn mx hrw selfId rest

/-- Embedding of `addPrefetchRange` from `dfc/listrange.go` (lines 424-436): local-bucket
check first, then range expansion, then `addPrefetchList`. -/
def addPrefetchRange (localBuckets : List String) (bucket : String)
    (find : String → Option String) (pfx : String) (mn mx : Int)
    (hrw : String → Option String × String) (selfId : String)
    (entries : List String) (expired : Bool) (hasDone : Bool)
    (queue : List FilesWD) : Except String (List FilesWD) :=
  if bucket ∈ localBuckets then
    .error ("Cannot prefetch from a local bucket: " ++ bucket)
  else
    match getListFromRangeFilter find pfx mn mx hrw selfId entries with
    | .error e => .error e
    | .ok objs => addPrefetchList localBuckets objs bucket expired hasDone queue

/-- The `SmapVoteMsg` payload reduced to what discovery uses: the vote flag and the two
component versions. -/
structure SmapVoteMsg where
  voteInProgress : Bool
  smapVersion : Int
  bmdVersion : Int
deriving DecidableEq

/-- Maximum of a list of versions, `none` on the empty list. -/
def listMaxInt : List Int → Option Int
  | [] => none
  | v :: rest =>
    match listMaxInt rest with
    | none => some v
    | some m => some (max v m)

/-- Modelled from the spec: `discoverClusterMeta` is not under `src/` (only
its test is).  A peer is modelled by the list of its responses over the
retry rounds that fit before the deadline (`none` = HTTP failure for that
round).  Discovery collects every successful response. -/
def goodResponses (peers : List (List (Option SmapVoteMsg))) : List SmapVoteMsg :=
  ((peers.map (fun rs => rs.filterMap id)).flatten).filter (fun r => !r.voteInProgress)

/-- Modelled from the spec: the nonzero Smap versions among the successful
non-vote-in-progress responses. -/
def smapVersions (peers : List (List (Option SmapVoteMsg))) : List Int :=
  (goodResponses peers).filterMap
    (fun r => if r.smapVersion = 0 then none else some r.smapVersion)

/-- Modelled from the spec: the nonzero BucketMD versions among the
successful non-vote-in-progress responses. -/
def bmdVersions (peers : List (List (Option SmapVoteMsg))) : List Int :=
  (goodResponses peers).filterMap
    (fun r => if r.bmdVersion = 0 then none else some r.bmdVersion)

/-- Modelled from the spec: `discoverClusterMeta(hints, deadline, interval)`
returns, independently per component, the maximum version among successful
non-vote-in-progress responses with a nonzero version for that component,
and `none` when there is no such response (spec 4.D; validated against the
cases of `TestDiscoverServers`). -/
def discoverClusterMeta (peers : List (List (Option SmapVoteMsg))) :
    Option Int × Option Int :=
  (listMaxInt (smapVersions peers), listMaxInt (bmdVersions peers))

/-!
Helper lemmas shared by the claim theorems.
-/

theorem delLoop_no_signal (f : String → Option String) (a e : Nat → Bool)
    (objs : List String) (i : Nat) :
    Event.signalDone ∉ (delLoop f a e objs i).1 := by
  induction objs generalizing i with
  | nil => simp [delLoop]
  | cons o rest ih =>
    by_cases h1 : a i = true
    · simp [delLoop, h1]
    · by_cases h2 : e i = true
      · simp [delLoop, h1, h2]
        exact ih (i + 1)
      · cases hf : f o with
        | some err => simp [delLoop, h1, h2, hf]
        | none =>
          simp [delLoop, h1, h2, hf]
          exact ih (i + 1)

theorem prefetchEntryEvents_not_mem (perr : String → Option String) (fwd : FilesWD)
    (ev : Event) (hsig : ev ≠ Event.signalDone)
    (hatt : ∀ o, ev ≠ Event.prefetchAttempt o) (hlog : ∀ m, ev ≠ Event.logged m) :
    ev ∉ prefetchEntryEvents perr fwd := by
  intro hmem
  rcases List.mem_append.mp hmem with hin | hin
  · rcases List.mem_flatMap.mp hin with ⟨o, _, ho⟩
    cases hp : perr o <;> rw [hp] at ho <;> simp at ho
    · exact hatt o ho
    · rcases ho with h | h
      · exact hatt o h
      · exact hlog _ h
  · by_cases hd : fwd.hasDone = true <;> simp [hd] at hin
    exact hsig hin

theorem prefetchEntryEvents_signal_count (perr : String → Option String) (fwd : FilesWD) :
    (prefetchEntryEvents perr fwd).count Event.signalDone =
      if fwd.hasDone then 1 else 0 := by
  unfold prefetchEntryEvents
  rw [List.count_append]
  have h0 : (fwd.objnames.flatMap (fun o => Event.prefetchAttempt o ::
      (match perr o with
       | some e => [Event.logged e]
       | none => []))).count Event.signalDone = 0 := by
    rw [List.count_eq_zero]
    intro hmem
    rcases List.mem_flatMap.mp hmem with ⟨o, _, ho⟩
    cases hp : perr o <;> rw [hp] at ho <;> simp at ho
  rw [h0]
  by_cases hd : fwd.hasDone = true <;> simp [hd]

theorem prefetchLoop_signal_count (perr : String → Option String) (queue : List FilesWD) :
    (prefetchLoop perr queue).count Event.signalDone =
      (queue.filter (fun f => !f.expired && f.hasDone)).length := by
  induction queue with
  | nil => rfl
  | cons fwd rest ih =>
    by_cases he : fwd.expired = true
    · simp [prefetchLoop, he, List.filter_cons, ih]
    · rw [show prefetchLoop perr (fwd :: rest) =
        prefetchEntryEvents perr fwd ++ prefetchLoop perr rest by simp [prefetchLoop, he]]
      rw [List.count_append, prefetchEntryEvents_signal_count]
      by_cases hd : fwd.hasDone = true
      · simp [List.filter_cons, he, hd, ih]
        omega
      · simp [List.filter_cons, he, hd, ih]

theorem prefetchLoop_no_dereg (perr : String → Option String) (queue : List FilesWD)
    (id : Nat) : Event.deregister id ∉ prefetchLoop perr queue := by
  induction queue with
  | nil => simp [prefetchLoop]
  | cons fwd rest ih =>
    by_cases he : fwd.expired = true
    · simp [prefetchLoop, he]
      exact ih
    · rw [show prefetchLoop perr (fwd :: rest) =
        prefetchEntryEvents perr fwd ++ prefetchLoop perr rest by simp [prefetchLoop, he]]
      intro hmem
      rcases List.mem_append.mp hmem with hin | hin
      · exact prefetchEntryEvents_not_mem perr fwd _ (by simp) (by simp) (by simp) hin
      · exact ih hin

theorem listMaxInt_eq_none_iff (l : List Int) : listMaxInt l = none ↔ l = [] := by
  cases l with
  | nil => simp [listMaxInt]
  | cons v rest =>
    simp only [listMaxInt]
    cases listMaxInt rest <;> simp

theorem listMaxInt_mem_le (l : List Int) (v : Int) (h : listMaxInt l = some v) :
    v ∈ l ∧ ∀ w ∈ l, w ≤ v := by
  induction l generalizing v with
  | nil => simp [listMaxInt] at h
  | cons a rest ih =>
    rw [listMaxInt] at h
    cases hr : listMaxInt rest with
    | none =>
      rw [hr] at h
      have hrest : rest = [] := (listMaxInt_eq_none_iff rest).mp hr
      subst hrest
      simp at h
      subst h
      simp
    | some m =>
      rw [hr] at h
      have hv : v = max a m := by
        have := h
        simp at this
        omega
      obtain ⟨hm, hall⟩ := ih m hr
      subst hv
      constructor
      · rcases max_choice a m with hc | hc
        · rw [hc]; exact List.mem_cons_self a rest
        · rw [hc]; exact List.mem_cons_of_mem a hm
      · intro w hw
        rcases List.mem_cons.mp hw with hw | hw
        · exact hw.le.trans (le_max_left a m)
        · exact le_trans (hall w hw) (le_max_right a m)

theorem listMaxInt_eq_some (l : List Int) (v : Int) (hv : v ∈ l)
    (hall : ∀ w ∈ l, w ≤ v) : listMaxInt l = some v := by
  cases hl : listMaxInt l with
  | none =>
    rw [listMaxInt_eq_none_iff] at hl
    subst hl
    simp at hv
  | some m =>
    obtain ⟨hm, hallm⟩ := listMaxInt_mem_le l m hl
    rw [le_antisymm (hallm v hv) (hall m hm)]

/-!
Claim theorems.
-/

/-- Claim C5: `acceptRegexRange(name, prefix, re, min, max)` returns true iff,
after stripping the prefix from the name, the regex matches and the full
match is either empty or parses as a base-10 integer within the bounds (0
meaning unset for either bound); it returns false on a non-empty non-number
or out-of-bounds match; and re-applying it to the same arguments gives the
same answer. -/
theorem C5_acceptRegexRange_spec (name pfx : String) (find : String → Option String)
    (mn mx : Int) :
    (acceptRegexRange name pfx find mn mx = true ↔
      ∃ m, find (trimPref name pfx) = some m ∧
        (m = "" ∨ ∃ i, goParseIntOk m = some i ∧
          (mn = 0 ∨ mn ≤ i) ∧ (mx = 0 ∨ i ≤ mx))) ∧
    acceptRegexRange name pfx find mn mx = acceptRegexRange name pfx find mn mx := by
  refine ⟨?_, rfl⟩
  unfold acceptRegexRange
  cases hf : find (trimPref name pfx) with
  | none => simp [hf]
  | some m =>
    simp only [hf, Option.some.injEq]
    by_cases hm : m = ""
    · subst hm
      simp
    · cases herr : (goParseInt m).2 with
      | some e =>
        have hok : goParseIntOk m = none := by simp [goParseIntOk, herr]
        simp [herr, hm, hok]
      | none =>
        have hok : goParseIntOk m = some (goParseInt m).1 := by simp [goParseIntOk, herr]
        simp [herr, hm, hok]

/-- Claim C6: `parseRange` maps the four spec inputs to exactly the stated
`(min, max)` pairs, with no error. -/
theorem C6_parseRange_examples :
    parseRange "" = .ok (0, 0, none) ∧ parseRange ":5" = .ok (0, 5, none) ∧
    parseRange "3:" = .ok (3, 0, none) ∧ parseRange "3:5" = .ok (3, 5, none) := by
  decide

/-- Claim C7: on the non-empty colon-free input "3" the split result has a
single element, and `parseRange` reaches the out-of-bounds index access
`ranges[1]`, i.e. it panics instead of returning. -/
theorem C7_parseRange_colonfree_crash :
    "3" ≠ "" ∧ ':' ∉ "3".data ∧ (goSplit "3" ':').length = 1 ∧
    parseRange "3" = .crash "runtime error: index out of range" := by
  decide

/-- Claim C8 (the code contradicts it): on the malformed range string "a:5"
`rangeOperation` reports the parse error to the client but then still starts
the operation goroutine, with the partial values min = max = 0, because the
error path does not return after calling the error handler. -/
theorem C8_rangeOperation_fallthrough :
    rangeOperation "a:5" = .ok { reportedError := true, opStarted := some (0, 0) } := by
  decide

/-- Claim C10: `newDelete` and `newEvict` register `xactDeleteEvict`s whose
`targetrunner` back-reference is nil, so `tostring` on them dereferences a
nil pointer when computing the start offset; `renewPrefetch` sets the
back-reference on the prefetch xactions it creates. -/
theorem C10_nil_backref (q : XactInProgress) (t : TargetRunner) :
    (q.newDelete).2.targetrunner = none ∧ (q.newEvict).2.targetrunner = none ∧
    XactEntry.delev (q.newDelete).2 ∈ (q.newDelete).1.inProg ∧
    XactEntry.delev (q.newEvict).2 ∈ (q.newEvict).1.inProg ∧
    (q.newDelete).2.tostring = .error "nil pointer dereference" ∧
    (q.newEvict).2.tostring = .error "nil pointer dereference" ∧
    (∀ xp, (q.renewPrefetch t).2 = some xp → xp.targetrunner = some t) := by
  refine ⟨rfl, rfl, ?_, ?_, rfl, rfl, ?_⟩
  · simp [XactInProgress.newDelete, XactInProgress.uniqueid, XactInProgress.add]
  · simp [XactInProgress.newEvict, XactInProgress.uniqueid, XactInProgress.add]
  · intro xp hxp
    unfold XactInProgress.renewPrefetch at hxp
    cases hfind : q.findU ActPrefetch with
    | some e => rw [hfind] at hxp; simp at hxp
    | none =>
      rw [hfind] at hxp
      simp [XactInProgress.uniqueid, XactInProgress.add] at hxp
      rw [← hxp]

/-- Witness for C10 at a concrete registry and runner. -/
theorem C10_nil_backref_witness :
    (XactInProgress.renewPrefetch { nextid := 0, inProg := [] } { starttimeVal := 5 }).2 =
      some { xactBase := newxactBase 0 ActPrefetch, targetrunner := some { starttimeVal := 5 } } ∧
    ({ xactBase := newxactBase 0 ActPrefetch,
       targetrunner := some { starttimeVal := 5 } } : XactPrefetch).targetrunner =
      some { starttimeVal := 5 } :=
  ⟨by decide,
   (C10_nil_backref { nextid := 0, inProg := [] } { starttimeVal := 5 }).2.2.2.2.2.2
     { xactBase := newxactBase 0 ActPrefetch, targetrunner := some { starttimeVal := 5 } }
     (by decide)⟩

/-- Claim C3: a prefetch request on a bucket that is local in the current
bucket metadata fails with a hard error returned synchronously by
`addPrefetchList` and by `addPrefetchRange`, and no entry is appended to the
prefetch queue (the error result carries no queue update). -/
theorem C3_prefetch_local_bucket (localBuckets : List String) (bucket : String)
    (objs entries : List String) (find : String → Option String) (pfx : String)
    (mn mx : Int) (hrw : String → Option String × String) (selfId : String)
    (expired hasDone : Bool) (queue : List FilesWD)
    (h : bucket ∈ localBuckets) :
    addPrefetchList localBuckets objs bucket expired hasDone queue =
      .error ("Cannot prefetch from a local bucket: " ++ bucket) ∧
    addPrefetchRange localBuckets bucket find pfx mn mx hrw selfId entries
        expired hasDone queue =
      .error ("Cannot prefetch from a local bucket: " ++ bucket) := by
  constructor
  · simp [addPrefetchList, h]
  · simp [addPrefetchRange, h]

/-- Witness for C3 at a concrete local bucket. -/
theorem C3_prefetch_local_bucket_witness :
    addPrefetchList ["lb"] ["o1"] "lb" false true [] =
      .error ("Cannot prefetch from a local bucket: " ++ "lb") ∧
    addPrefetchRange ["lb"] "lb" (fun _ => some "") "" 0 0
        (fun _ => (some "t", "")) "t" ["o1"] false true [] =
      .error ("Cannot prefetch from a local bucket: " ++ "lb") :=
  C3_prefetch_local_bucket ["lb"] "lb" ["o1"] ["o1"] (fun _ => some "") "" 0 0
    (fun _ => (some "t", "")) "t" false true [] (by decide)

theorem listOperationFilter_ok (hrw : String → Option String × String) (selfId : String)
    (objnames : List String)
    (h : ∀ o ∈ objnames, (hrw o).2 = "" ∧ (hrw o).1.isSome) :
    listOperationFilter hrw selfId objnames =
      .ok (objnames.filter (fun o => (hrw o).1 == some selfId)) := by
  induction objnames with
  | nil => rfl
  | cons o rest ih =>
    obtain ⟨he, hs⟩ := h o (List.mem_cons_self o rest)
    obtain ⟨d, hd⟩ := Option.isSome_iff_exists.mp hs
    have ihr := ih (fun x hx => h x (List.mem_cons_of_mem o hx))
    by_cases hds : d = selfId <;>
      simp [listOperationFilter, List.filter_cons, he, hd, ihr, hds]

theorem getListFromRangeFilter_ok (find : String → Option String) (pfx : String)
    (mn mx : Int) (hrw : String → Option String × String) (selfId : String)
    (entries : List String)
    (h : ∀ o ∈ entries, (hrw o).2 = "" ∧ (hrw o).1.isSome) :
    getListFromRangeFilter find pfx mn mx hrw selfId entries =
      .ok ((entries.filter (fun be => acceptRegexRange be pfx find mn mx)).filter
        (fun o => (hrw o).1 == some selfId)) := by
  induction entries with
  | nil => rfl
  | cons be rest ih =>
    obtain ⟨he, hs⟩ := h be (List.mem_cons_self be rest)
    obtain ⟨d, hd⟩ := Option.isSome_iff_exists.mp hs
    have ihr := ih (fun x hx => h x (List.mem_cons_of_mem be hx))
    by_cases ha : acceptRegexRange be pfx find mn mx = false
    · simp [getListFromRangeFilter, List.filter_cons, ha, ihr]
    · rw [Bool.not_eq_false] at ha
      by_cases hds : d = selfId <;>
        simp [getListFromRangeFilter, List.filter_cons, he, hd, ihr, hds, ha]

/-- Claim C4: the list operation keeps exactly the objects that HRW-hash to
the target itself, silently (without error) dropping the rest, and the range
expansion applies the same ownership filter after the regex/range
acceptance test — provided `HrwTarget` resolves every name without error to
some target. -/
theorem C4_ownership_filter (hrw : String → Option String × String)
    (selfId pfx : String) (mn mx : Int) (find : String → Option String)
    (objnames entries : List String)
    (h1 : ∀ o ∈ objnames, (hrw o).2 = "" ∧ (hrw o).1.isSome)
    (h2 : ∀ o ∈ entries, (hrw o).2 = "" ∧ (hrw o).1.isSome) :
    listOperationFilter hrw selfId objnames =
      .ok (objnames.filter (fun o => (hrw o).1 == some selfId)) ∧
    getListFromRangeFilter find pfx mn mx hrw selfId entries =
      .ok ((entries.filter (fun be => acceptRegexRange be pfx find mn mx)).filter
        (fun o => (hrw o).1 == some selfId)) :=
  ⟨listOperationFilter_ok hrw selfId objnames h1,
   getListFromRangeFilter_ok find pfx mn mx hrw selfId entries h2⟩

/-- Witness for C4 at a concrete two-target map: the target keeps "x"
(owned by itself) and drops "y" (owned by the other target), in both the
list path and the range path. -/
theorem C4_ownership_filter_witness :
    listOperationFilter (fun o => (some (if o = "x" then "tself" else "tother"), ""))
        "tself" ["x", "y"] = .ok ["x"] ∧
    getListFromRangeFilter (fun _ => some "") "" 0 0
        (fun o => (some (if o = "x" then "tself" else "tother"), ""))
        "tself" ["x", "y"] = .ok ["x"] := by
  have h := C4_ownership_filter
    (fun o => (some (if o = "x" then "tself" else "tother"), ""))
    "tself" "" 0 0 (fun _ => some "") ["x", "y"] ["x", "y"]
    (by intro o ho; constructor <;> rfl)
    (by intro o ho; constructor <;> rfl)
  refine ⟨?_, ?_⟩
  · rw [h.1]; rfl
  · rw [h.2]; rfl

theorem mem_goodResponses (peers : List (List (Option SmapVoteMsg))) (m : SmapVoteMsg) :
    m ∈ goodResponses peers ↔
      (∃ rs ∈ peers, some m ∈ rs) ∧ m.voteInProgress = false := by
  simp [goodResponses, List.mem_filter, List.mem_flatten, List.mem_filterMap, id]
  tauto

theorem goodResponses_eq_nil (peers : List (List (Option SmapVoteMsg)))
    (h : ∀ rs ∈ peers, ∀ m : SmapVoteMsg, some m ∈ rs → m.voteInProgress = true) :
    goodResponses peers = [] := by
  rw [List.eq_nil_iff_forall_not_mem]
  intro m hm
  rw [mem_goodResponses] at hm
  obtain ⟨⟨rs, hrs, hin⟩, hv⟩ := hm
  rw [h rs hrs m hin] at hv
  simp at hv

/-- Claim C9: discovery returns, independently per component, the maximum
version among successful non-vote-in-progress responses with a nonzero
version for that component, and `none` for a component iff no such response
was received; in particular it returns `(none, none)` for an empty hint set,
for peers that always fail, and for peers permanently in vote-in-progress. -/
theorem C9_discoverClusterMeta_spec (peers : List (List (Option SmapVoteMsg))) :
    ((∀ v, (discoverClusterMeta peers).1 = some v ↔
        v ∈ smapVersions peers ∧ ∀ w ∈ smapVersions peers, w ≤ v) ∧
      ((discoverClusterMeta peers).1 = none ↔ smapVersions peers = [])) ∧
    ((∀ v, (discoverClusterMeta peers).2 = some v ↔
        v ∈ bmdVersions peers ∧ ∀ w ∈ bmdVersions peers, w ≤ v) ∧
      ((discoverClusterMeta peers).2 = none ↔ bmdVersions peers = [])) ∧
    (peers = [] → discoverClusterMeta peers = (none, none)) ∧
    ((∀ rs ∈ peers, ∀ r ∈ rs, r = (none : Option SmapVoteMsg)) →
      discoverClusterMeta peers = (none, none)) ∧
    ((∀ rs ∈ peers, ∀ m : SmapVoteMsg, some m ∈ rs → m.voteInProgress = true) →
      discoverClusterMeta peers = (none, none)) := by
  refine ⟨⟨?_, listMaxInt_eq_none_iff _⟩, ⟨?_, listMaxInt_eq_none_iff _⟩, ?_, ?_, ?_⟩
  · intro v
    exact ⟨fun h => listMaxInt_mem_le _ v h,
      fun h => listMaxInt_eq_some _ v h.1 h.2⟩
  · intro v
    exact ⟨fun h => listMaxInt_mem_le _ v h,
      fun h => listMaxInt_eq_some _ v h.1 h.2⟩
  · intro hp
    subst hp
    rfl
  · intro hf
    have hempty := goodResponses_eq_nil peers
      (fun rs hrs m hin => absurd (hf rs hrs _ hin) (by simp))
    simp [discoverClusterMeta, smapVersions, bmdVersions, hempty, listMaxInt]
  · intro hv
    have hempty := goodResponses_eq_nil peers hv
    simp [discoverClusterMeta, smapVersions, bmdVersions, hempty, listMaxInt]

/-- Witness for C9 on the "mixed heights" discovery scenario of the test
suite: three responders at versions (1,2), (4,5), (1,2) give (4,5). -/
theorem C9_discoverClusterMeta_witness :
    (discoverClusterMeta
        [[some { voteInProgress := false, smapVersion := 1, bmdVersion := 2 }],
         [some { voteInProgress := false, smapVersion := 4, bmdVersion := 5 }],
         [some { voteInProgress := false, smapVersion := 1, bmdVersion := 2 }]]).1 = some 4 ∧
    (discoverClusterMeta
        [[some { voteInProgress := false, smapVersion := 1, bmdVersion := 2 }],
         [some { voteInProgress := false, smapVersion := 4, bmdVersion := 5 }],
         [some { voteInProgress := false, smapVersion := 1, bmdVersion := 2 }]]).2 = some 5 :=
  ⟨((C9_discoverClusterMeta_spec
      [[some { voteInProgress := false, smapVersion := 1, bmdVersion := 2 }],
       [some { voteInProgress := false, smapVersion := 4, bmdVersion := 5 }],
       [some { voteInProgress := false, smapVersion := 1, bmdVersion := 2 }]]).1.1 4).mpr
    (by decide),
   ((C9_discoverClusterMeta_spec
      [[some { voteInProgress := false, smapVersion := 1, bmdVersion := 2 }],
       [some { voteInProgress := false, smapVersion := 4, bmdVersion := 5 }],
       [some { voteInProgress := false, smapVersion := 1, bmdVersion := 2 }]]).2.1.1 5).mpr
    (by decide)⟩

/-- Claim C1 is false as stated: on a one-object delete batch with Wait=true
the trace is [attempted, signalDone, deregister], so the completion signal
(index 1) is sent BEFORE the xaction is deregistered (index 2), not after
the deregistration as the claim requires. -/
theorem C1_counterexample :
    ¬ (∀ i j : Nat,
        (doListEvictDelete { nextid := 1, inProg := [] } false (fun _ => none)
          (fun _ => false) (fun _ => false) ["a"] true).2.1[i]? =
            some Event.signalDone →
        (doListEvictDelete { nextid := 1, inProg := [] } false (fun _ => none)
          (fun _ => false) (fun _ => false) ["a"] true).2.1[j]? =
            some (Event.deregister 1) →
        j < i) := by
  intro h
  exact absurd (h 1 2 (by decide) (by decide)) (by decide)

/-- Claim C1 (amended): with Wait = true the delete/evict engine sends
exactly one completion signal, after the last object has been processed or
skipped and immediately BEFORE the xaction is deregistered; with Wait =
false it sends none; the prefetch engine sends one signal per drained
non-expired queue entry carrying a done channel, all before its xaction is
deregistered, and an entry dropped for deadline expiry yields no signal. -/
theorem C1_amended (q : XactInProgress) (evict : Bool)
    (fildelete : String → Option String) (abortAt expiredAt : Nat → Bool)
    (objs : List String) (t : TargetRunner) (perr : String → Option String)
    (queue : List FilesWD) :
    ((doListEvictDelete q evict fildelete abortAt expiredAt objs true).2.1 =
        (delLoop fildelete abortAt expiredAt objs 0).1 ++
          [Event.signalDone, Event.deregister q.nextid] ∧
      Event.signalDone ∉ (delLoop fildelete abortAt expiredAt objs 0).1 ∧
      (doListEvictDelete q evict fildelete abortAt expiredAt objs true).2.1.count
          Event.signalDone = 1) ∧
    Event.signalDone ∉
      (doListEvictDelete q evict fildelete abortAt expiredAt objs false).2.1 ∧
    (q.findU ActPrefetch = none →
      (doPrefetch q t perr queue).2 =
        prefetchLoop perr queue ++ [Event.deregister q.nextid] ∧
      (prefetchLoop perr queue).count Event.signalDone =
        (queue.filter (fun f => !f.expired && f.hasDone)).length ∧
      Event.deregister q.nextid ∉ prefetchLoop perr queue) := by
  have htr : (doListEvictDelete q evict fildelete abortAt expiredAt objs true).2.1 =
      (delLoop fildelete abortAt expiredAt objs 0).1 ++
        [Event.signalDone, Event.deregister q.nextid] := by
    cases evict <;>
      simp [doListEvictDelete, XactInProgress.newEvict, XactInProgress.newDelete,
        XactInProgress.uniqueid, newxactBase]
  have htr0 : (doListEvictDelete q evict fildelete abortAt expiredAt objs false).2.1 =
      (delLoop fildelete abortAt expiredAt objs 0).1 ++ [Event.deregister q.nextid] := by
    cases evict <;>
      simp [doListEvictDelete, XactInProgress.newEvict, XactInProgress.newDelete,
        XactInProgress.uniqueid, newxactBase]
  refine ⟨⟨htr, delLoop_no_signal fildelete abortAt expiredAt objs 0, ?_⟩, ?_, ?_⟩
  · rw [htr, List.count_append,
      List.count_eq_zero.mpr (delLoop_no_signal fildelete abortAt expiredAt objs 0)]
    simp
  · rw [htr0]
    intro hmem
    rcases List.mem_append.mp hmem with hin | hin
    · exact delLoop_no_signal fildelete abortAt expiredAt objs 0 hin
    · simp at hin
  · intro hfind
    refine ⟨?_, prefetchLoop_signal_count perr queue,
      prefetchLoop_no_dereg perr queue q.nextid⟩
    simp [doPrefetch, XactInProgress.renewPrefetch, hfind, XactInProgress.uniqueid,
      XactInProgress.add, newxactBase]

/-- Witness for C1 (amended) on a one-entry prefetch queue with Wait=true,
starting from an empty registry. -/
theorem C1_amended_witness :
    (doPrefetch { nextid := 1, inProg := [] } { starttimeVal := 0 } (fun _ => none)
        [{ objnames := ["a"], bucket := "cb", expired := false, hasDone := true }]).2 =
      prefetchLoop (fun _ => none)
        [{ objnames := ["a"], bucket := "cb", expired := false, hasDone := true }] ++
        [Event.deregister 1] ∧
    (prefetchLoop (fun _ => none)
        [{ objnames := ["a"], bucket := "cb", expired := false, hasDone := true }]).count
        Event.signalDone =
      (([{ objnames := ["a"], bucket := "cb", expired := false, hasDone := true }] :
          List FilesWD).filter (fun f => !f.expired && f.hasDone)).length ∧
    Event.deregister 1 ∉ prefetchLoop (fun _ => none)
        [{ objnames := ["a"], bucket := "cb", expired := false, hasDone := true }] :=
  (C1_amended { nextid := 1, inProg := [] } false (fun _ => none) (fun _ => false)
    (fun _ => false) ["a"] { starttimeVal := 0 } (fun _ => none)
    [{ objnames := ["a"], bucket := "cb", expired := false, hasDone := true }]).2.2
    (by decide)

/-- Claim C2 is false as stated for delete/evict: on the batch ["a", "b"]
where deleting "a" fails, object "b" is never attempted — the first
per-object error ends the xaction's loop. -/
theorem C2_counterexample :
    Event.attempted "b" ∉
      (doListEvictDelete { nextid := 1, inProg := [] } false
        (fun o => if o = "a" then some "object not found" else none)
        (fun _ => false) (fun _ => false) ["a", "b"] true).2.1 := by
  decide

theorem delLoop_first_error (fildelete : String → Option String)
    (pre : List String) (o err : String) (post : List String) (i : Nat)
    (hpre : ∀ p ∈ pre, fildelete p = none) (ho : fildelete o = some err) :
    delLoop fildelete (fun _ => false) (fun _ => false) (pre ++ o :: post) i =
      (pre.map Event.attempted ++ [Event.attempted o], some err) := by
  induction pre generalizing i with
  | nil => simp [delLoop, ho]
  | cons p rest ih =>
    have hp := hpre p (List.mem_cons_self p rest)
    have ihr := ih (i + 1) (fun x hx => hpre x (List.mem_cons_of_mem p hx))
    simp [delLoop, hp, ihr]

/-- Claim C2 (amended): for prefetch a per-object failure is logged inside
`prefetchMissing` and does not abort the batch — every object of the queue
entry is still attempted and no `numerr` is added per object; for
delete/evict the first per-object failure terminates the batch (objects
after it are not attempted) and the dispatching goroutine then logs the
error and adds `numerr` once for the whole batch. -/
theorem C2_amended (fildelete : String → Option String) (pre : List String)
    (o err : String) (post : List String) (q : XactInProgress)
    (evict wait : Bool) (perr : String → Option String) (fwd : FilesWD)
    (hpre : ∀ p ∈ pre, fildelete p = none) (ho : fildelete o = some err) :
    delLoop fildelete (fun _ => false) (fun _ => false) (pre ++ o :: post) 0 =
      (pre.map Event.attempted ++ [Event.attempted o], some err) ∧
    (doListEvictDelete q evict fildelete (fun _ => false) (fun _ => false)
        (pre ++ o :: post) wait).2.2 = some err ∧
    (listOperationDispatch q evict fildelete (fun _ => false) (fun _ => false)
        (pre ++ o :: post) wait).2 =
      (doListEvictDelete q evict fildelete (fun _ => false) (fun _ => false)
          (pre ++ o :: post) wait).2.1 ++
        [Event.logged ("Error performing list operation: " ++ err),
         Event.statAdd "numerr" 1] ∧
    (∀ ob ∈ fwd.objnames, Event.prefetchAttempt ob ∈ prefetchEntryEvents perr fwd) ∧
    (∀ s n, Event.statAdd s n ∉ prefetchEntryEvents perr fwd) := by
  have hloop := delLoop_first_error fildelete pre o err post 0 hpre ho
  have hres : (doListEvictDelete q evict fildelete (fun _ => false) (fun _ => false)
      (pre ++ o :: post) wait).2.2 = some err := by
    cases evict <;> simp [doListEvictDelete, hloop, XactInProgress.newEvict,
      XactInProgress.newDelete, XactInProgress.uniqueid, newxactBase]
  refine ⟨hloop, hres, ?_, ?_, ?_⟩
  · have hne : pre ++ o :: post ≠ [] := by simp
    simp [listOperationDispatch, hne, hres]
  · intro ob hob
    apply List.mem_append.mpr
    left
    apply List.mem_flatMap.mpr
    exact ⟨ob, hob, List.mem_cons_self _ _⟩
  · intro s n
    exact prefetchEntryEvents_not_mem perr fwd _ (by simp) (by simp) (by simp)

/-- Witness for C2 (amended): delete batch ["a", "b"] failing on "a", with
Wait=true, plus a one-object prefetch entry. -/
theorem C2_amended_witness :
    delLoop (fun ob => if ob = "a" then some "boom" else none) (fun _ => false)
        (fun _ => false) ([] ++ "a" :: ["b"]) 0 =
      (List.map Event.attempted [] ++ [Event.attempted "a"], some "boom") ∧
    (doListEvictDelete { nextid := 1, inProg := [] } false
        (fun ob => if ob = "a" then some "boom" else none) (fun _ => false)
        (fun _ => false) ([] ++ "a" :: ["b"]) true).2.2 = some "boom" ∧
    (listOperationDispatch { nextid := 1, inProg := [] } false
        (fun ob => if ob = "a" then some "boom" else none) (fun _ => false)
        (fun _ => false) ([] ++ "a" :: ["b"]) true).2 =
      (doListEvictDelete { nextid := 1, inProg := [] } false
          (fun ob => if ob = "a" then some "boom" else none) (fun _ => false)
          (fun _ => false) ([] ++ "a" :: ["b"]) true).2.1 ++
        [Event.logged ("Error performing list operation: " ++ "boom"),
         Event.statAdd "numerr" 1] ∧
    (∀ ob ∈ ({ objnames := ["p1"], bucket := "cb", expired := false, hasDone := false } : FilesWD).objnames,
      Event.prefetchAttempt ob ∈ prefetchEntryEvents (fun _ => none)
        { objnames := ["p1"], bucket := "cb", expired := false, hasDone := false }) ∧
    (∀ s n, Event.statAdd s n ∉ prefetchEntryEvents (fun _ => none)
        { objnames := ["p1"], bucket := "cb", expired := false, hasDone := false }) :=
  C2_amended (fun ob => if ob = "a" then some "boom" else none) [] "a" "boom" ["b"]
    { nextid := 1, inProg := [] } false true (fun _ => none)
    { objnames := ["p1"], bucket := "cb", expired := false, hasDone := false }
    (by simp) (by decide)
